/-
Verification of the real-time collaboration core of obsedian-cloud:
the WebSocket collaboration server (src/lib/collaboration/ws-server.ts)
and the client-side Yjs provider (src/lib/collaboration/yjs-provider.ts).

The code is shallowly embedded: each handler becomes a pure function from
an explicit state to a new state plus a list of observable effects
(socket sends, socket closes, armed timers, console logs).  JavaScript
`Map` objects are modelled as insertion-ordered association lists, which
matches `Map.set` (replace in place or append) and `Map.forEach`
(iteration in insertion order).  Timestamps are naturals (milliseconds).

The repository delegates CRDT merging to the external `yjs` library
(`Y.Doc`, `Y.applyUpdate`, `Y.encodeStateAsUpdate`), whose code is not
part of this repository.  Those operations are modelled from the spec:
the mergeable state is a commutative, idempotent replicated structure,
here a set of opaque operation identifiers; an encoded update is a byte
list carrying operations behind a header byte, corrupt encodings are
rejected, and encoding a state produces a canonical (sorted,
deduplicated) byte list so that convergent states are byte-for-byte
equal.
-/

import Mathlib

namespace ObsedianCloud

/-! ## Model of the external Yjs merge layer -/

/-- `Modelled from the spec:` the `yjs` library's decoder for an encoded
update (the inverse side of `Y.applyUpdate`'s input format) is not in this
repository.  An encoded update is a byte list: a well-formed encoding is a
`0` header byte followed by opaque operation identifiers; anything else is
corrupt and rejected ("corrupt or inapplicable update bytes", spec §7). -/
def decodeYUpdate (bytes : List Nat) : Option (List Nat) :=
  match bytes with
  | 0 :: ops => some ops
  | _ => none

/-- `Modelled from the spec:` `Y.encodeStateAsUpdate` — not in this
repository — returns the full-state encoding of a document.  Per spec §8
("Convergence … resulting encoded states are byte-for-byte equal") the
encoding is canonical: the header byte followed by the document's
operation set, sorted and deduplicated. -/
def encodeYState (ops : List Nat) : List Nat :=
  0 :: (ops.toFinset.sort (· ≤ ·))

/-- `Modelled from the spec:` `Y.applyUpdate` — not in this repository —
merges an encoded update into a document's operation set.  Merging is
commutative and idempotent (spec §2, §4.2): it is set union of the
carried operations.  Corrupt bytes throw, leaving the state unchanged
("it must not corrupt the room's existing state", spec §7); the thrown
error is modelled as `Except.error`. -/
def applyYUpdateE (ops : List Nat) (update : List Nat) : Except String (List Nat) :=
  match decodeYUpdate update with
  | some newOps => .ok (ops ++ newOps.filter (fun o => ¬ o ∈ ops))
  | none => .error "Integer out of range!"

/-! ## Client provider (src/lib/collaboration/yjs-provider.ts) -/

/-- Connection status of the client provider (`ConnectionStatus`). -/
inductive ConnectionStatus where
  | connecting
  | connected
  | disconnected
deriving DecidableEq, Repr

/-- The mutable fields of `YjsDocumentProvider` that the embedded methods
touch: the local replica's operation set (`this.ydoc`), the reconnection
counter and the connection/sync flags (`this.state`). -/
structure ProviderState where
  ydocOps : List Nat
  reconnectAttempts : Nat
  isConnected : Bool
  isSynced : Bool
deriving DecidableEq, Repr

/-- Observable effects of the client provider: callbacks into the caller
(`this.events.*`), a scheduled reconnection (`setTimeout` delay in ms),
and console logging. -/
inductive PEffect where
  | emitStatus (status : ConnectionStatus)
  | emitSynced (isSynced : Bool)
  | scheduleReconnect (delayMs : Nat)
  | consoleError (msg : String)
deriving DecidableEq, Repr

/-- Whether a provider effect is a callback delivered to the provider's
caller through the `YjsProviderEvents` interface (as opposed to a console
log or an internal timer). -/
def PEffect.isCallerCallback : PEffect → Bool
  | .emitStatus _ => true
  | .emitSynced _ => true
  | _ => false

/-- `this.maxReconnectAttempts = 10` (yjs-provider.ts line 51). -/
def maxReconnectAttempts : Nat := 10

/-- `YjsDocumentProvider.handleDisconnect` (yjs-provider.ts lines
161–175): at or above the ceiling, log and return; otherwise compute the
backoff delay `min(1000 * 2^attempts, 30000)`, increment the counter and
schedule a reconnect after that delay. -/
def handleDisconnect (s : ProviderState) : ProviderState × List PEffect :=
  if s.reconnectAttempts ≥ maxReconnectAttempts then
    (s, [.consoleError "Max reconnection attempts reached"])
  else
    let delay := min (1000 * 2 ^ s.reconnectAttempts) 30000
    ({ s with reconnectAttempts := s.reconnectAttempts + 1 },
     [.scheduleReconnect delay])

/-- The provider's `status` event listener (yjs-provider.ts lines
102–112): record connectivity, notify the caller, then reset the counter
on `connected` or run `handleDisconnect` on `disconnected`. -/
def onStatusEvent (s : ProviderState) (status : ConnectionStatus) :
    ProviderState × List PEffect :=
  let s1 := { s with isConnected := status = .connected }
  match status with
  | .connected => ({ s1 with reconnectAttempts := 0 }, [.emitStatus status])
  | .disconnected =>
      let res := handleDisconnect s1
      (res.1, .emitStatus status :: res.2)
  | .connecting => (s1, [.emitStatus status])

/-- `YjsDocumentProvider.applyUpdate` (yjs-provider.ts lines 264–266):
`Y.applyUpdate(this.ydoc, update)`. -/
def YjsDocumentProvider.applyUpdate (s : ProviderState) (update : List Nat) :
    Except String ProviderState :=
  match applyYUpdateE s.ydocOps update with
  | .ok ops => .ok { s with ydocOps := ops }
  | .error e => .error e

/-- `YjsDocumentProvider.loadInitialState` (yjs-provider.ts lines
271–273): `Y.applyUpdate(this.ydoc, state)`. -/
def YjsDocumentProvider.loadInitialState (s : ProviderState) (state : List Nat) :
    Except String ProviderState :=
  match applyYUpdateE s.ydocOps state with
  | .ok ops => .ok { s with ydocOps := ops }
  | .error e => .error e

/-- `mergeYjsStates` (yjs-provider.ts lines 330–337): fresh doc, apply
`state1`, apply `state2`, return the encoded merged state.  An exception
from either apply aborts the merge. -/
def mergeYjsStates (state1 state2 : List Nat) : Except String (List Nat) :=
  match applyYUpdateE [] state1 with
  | .error e => .error e
  | .ok doc =>
      match applyYUpdateE doc state2 with
      | .error e => .error e
      | .ok doc2 => .ok (encodeYState doc2)

/-- `areStatesEqual` (yjs-provider.ts lines 342–361): apply each state to
a fresh doc and compare the re-encoded snapshots byte for byte.  An
exception from either apply aborts the comparison. -/
def areStatesEqual (state1 state2 : List Nat) : Except String Bool :=
  match applyYUpdateE [] state1 with
  | .error e => .error e
  | .ok doc1 =>
      match applyYUpdateE [] state2 with
      | .error e => .error e
      | .ok doc2 => .ok (encodeYState doc1 = encodeYState doc2)

/-! ## Collaboration server (src/lib/collaboration/ws-server.ts)

JavaScript `Map`s become insertion-ordered association lists.  Sockets
are identified by a `Nat`; a socket's `readyState === OPEN` check becomes
the `wsOpen` flag stored with the connection.  Handlers return the new
server (or room) state plus the list of observable effects in the order
the source performs them. -/

/-- `PRESENCE_TIMEOUT` (ws-server.ts line 13). -/
def PRESENCE_TIMEOUT : Nat := 5000

/-- The `setInterval` period of the presence sweeper (ws-server.ts
line 57). -/
def presenceSweepIntervalMs : Nat := 1000

/-- The deferred room destruction delay (ws-server.ts line 240). -/
def roomDestroyDelayMs : Nat := 60000

/-- The payload of a `WSMessage.data` field: `Uint8Array | string`. -/
inductive MsgData where
  | bytes (bs : List Nat)
  | str (s : String)
deriving DecidableEq, Repr

/-- A parsed inbound `WSMessage` (ws-server.ts lines 30–38).  The `type`
field stays a string because the dispatcher switches on it and logs
unknown values. -/
structure WSMessage where
  type : String
  documentId : String
  data : Option MsgData := none
  userId : Option String := none
  userName : Option String := none
  userColor : Option String := none
  cursor : Option (Int × Int) := none
deriving DecidableEq, Repr

/-- One entry of the presence list built by `getPresenceList`. -/
structure PresenceEntry where
  userId : String
  userName : String
  userColor : String
  cursor : Option (Int × Int)
deriving DecidableEq, Repr

/-- A message written to a socket, as the structured value the source
passes to `JSON.stringify` right before `ws.send`. -/
inductive OutMsg where
  /-- `handleUpdate` forwards the parsed inbound message object itself:
  `otherClient.ws.send(JSON.stringify(message))`. -/
  | forwarded (m : WSMessage)
  /-- the initial `sync` message: `{type:'sync', documentId:'', data}`
  with `data` the base64 of the encoded room state. -/
  | sync (data : String)
  /-- the initial `awareness` message `{type:'awareness', documentId:'',
  data: JSON.stringify(presenceList)}`. -/
  | awarenessList (list : List PresenceEntry)
  /-- a `broadcastPresence` message `{type:'awareness', action, userId,
  data: JSON.stringify(presenceList)}`. -/
  | presence (action : String) (userId : String) (list : List PresenceEntry)
  /-- a forwarded cursor message (`handleCursor`). -/
  | cursorMsg (documentId userId userName userColor : String)
      (cursor : Option (Int × Int))
deriving DecidableEq, Repr

/-- Observable server effects: socket sends and closes, the deferred
room-destruction timer (`setTimeout(..., 60000)` capturing the room,
whose callback reads `room.doc.guid`), destruction of a Yjs doc, and
console logging. -/
inductive Effect where
  | send (ws : Nat) (msg : OutMsg)
  | close (ws : Nat) (code : Nat) (reason : String)
  | armDestroyTimer (delayMs : Nat) (docGuid : String)
  | destroyDoc (guid : String)
  | log (msg : String)
deriving DecidableEq, Repr

/-- A `ClientConnection` (ws-server.ts lines 21–28); `ws` is the socket
id and `wsOpen` its `readyState === OPEN` status. -/
structure ClientConnection where
  ws : Nat
  wsOpen : Bool
  userId : String
  userName : String
  userColor : String
  lastSeen : Nat
  cursor : Option (Int × Int) := none
deriving DecidableEq, Repr

/-- A `Y.Doc` as the server sees it: its random `guid` (assigned at
construction, never equal to anything by design) and its operation set
(see the spec-modelled merge layer above). -/
structure YDocM where
  guid : String
  ops : List Nat
deriving DecidableEq, Repr

/-- A `DocumentRoom` (ws-server.ts lines 15–19). -/
structure Room where
  doc : YDocM
  clients : List (String × ClientConnection)
  lastActivity : Nat
deriving DecidableEq, Repr

/-- The server's mutable maps (ws-server.ts lines 46–47): `rooms` keyed
by document id, `clientToRoom` keyed by socket. -/
structure ServerState where
  rooms : List (String × Room)
  clientToRoom : List (Nat × String)
deriving DecidableEq, Repr

/-- `Map.get`: first entry with the key. -/
def lookupAssoc {κ α : Type} [DecidableEq κ] (l : List (κ × α)) (k : κ) :
    Option α :=
  (l.find? (fun e => e.1 = k)).map (·.2)

/-- `Map.set`: replace in place when the key is present (insertion order
is kept), append otherwise. -/
def setAssoc {κ α : Type} [DecidableEq κ] (l : List (κ × α)) (k : κ) (v : α) :
    List (κ × α) :=
  if l.any (fun e => e.1 = k) then
    l.map (fun e => if e.1 = k then (k, v) else e)
  else l ++ [(k, v)]

/-- `Map.delete`. -/
def eraseAssoc {κ α : Type} [DecidableEq κ] (l : List (κ × α)) (k : κ) :
    List (κ × α) :=
  l.filter (fun e => ¬ e.1 = k)

/-- `getPresenceList` (ws-server.ts lines 260–283) over a client map. -/
def presenceListOf (clients : List (String × ClientConnection)) :
    List PresenceEntry :=
  clients.map (fun e => ⟨e.2.userId, e.2.userName, e.2.userColor, e.2.cursor⟩)

/-- `broadcastPresence` (ws-server.ts lines 244–258): build the presence
list, then send the awareness envelope to every client whose socket is
open. -/
def broadcastPresenceEffects (clients : List (String × ClientConnection))
    (action : String) (userId : String) : List Effect :=
  let list := presenceListOf clients
  clients.filterMap (fun e =>
    if e.2.wsOpen then some (.send e.2.ws (.presence action userId list))
    else none)

/-- `getOrCreateRoom` (ws-server.ts lines 116–129).  `guid` stands for
the random uuid `new Y.Doc()` assigns to a fresh doc. -/
def getOrCreateRoom (s : ServerState) (documentId : String) (guid : String)
    (now : Nat) : Room × ServerState :=
  match lookupAssoc s.rooms documentId with
  | some room => (room, s)
  | none =>
      let room : Room := ⟨⟨guid, []⟩, [], now⟩
      (room, { s with rooms := s.rooms ++ [(documentId, room)] })

/-- `handleConnection` (ws-server.ts lines 77–114) together with
`sendInitialSync` (lines 131–148): register the client, push `sync` then
the presence list to it, then broadcast a `join` presence update.
`b64enc` stands for `Buffer.from(state).toString('base64')`. -/
def handleConnection (b64enc : List Nat → String) (s : ServerState)
    (ws : Nat) (wsOpen : Bool) (documentId userId userColor : String)
    (guid : String) (now : Nat) : ServerState × List Effect :=
  let rs := getOrCreateRoom s documentId guid now
  let client : ClientConnection :=
    ⟨ws, wsOpen, userId, "Anonymous", userColor, now, none⟩
  let room1 := { rs.1 with clients := setAssoc rs.1.clients userId client }
  let s2 : ServerState :=
    { rooms := setAssoc rs.2.rooms documentId room1,
      clientToRoom := setAssoc rs.2.clientToRoom ws documentId }
  let effs :=
    [Effect.send ws (.sync (b64enc (encodeYState room1.doc.ops))),
     Effect.send ws (.awarenessList (presenceListOf room1.clients))] ++
    broadcastPresenceEffects room1.clients "join" userId
  (s2, effs)

/-- The `connection` listener of `setupServer` (ws-server.ts lines
62–75): the document id is the request pathname without its leading
slash; the participant id is the `userId` query parameter, or a generated
id when absent or empty (`||` treats `""` as falsy); an empty document id
refuses the handshake with close code 4000. -/
def onConnectionUpgrade (b64enc : List Nat → String) (s : ServerState)
    (ws : Nat) (wsOpen : Bool) (pathname : String)
    (queryUserId : Option String) (generatedId userColor guid : String)
    (now : Nat) : ServerState × List Effect :=
  let documentId := pathname.drop 1
  let userId :=
    match queryUserId with
    | some u => if u = "" then generatedId else u
    | none => generatedId
  if documentId = "" then
    (s, [Effect.close ws 4000 "Document ID required"])
  else
    handleConnection b64enc s ws wsOpen documentId userId userColor guid now

/-- `handleUpdate` (ws-server.ts lines 179–192): the guard
`if (!message.data || typeof message.data !== 'string') return` drops the
message silently when `data` is absent, not a string, or the empty string
(`""` is falsy in JavaScript); otherwise base64-decode it (`b64dec`
stands for `Buffer.from(data, 'base64')`), apply it to the room doc — an
exception propagates to `handleMessage`'s catch — and forward the
received message object unchanged to every other client with an open
socket. -/
def handleUpdate (b64dec : String → List Nat) (room : Room)
    (client : ClientConnection) (msg : WSMessage) :
    Except String (Room × List Effect) :=
  match msg.data with
  | some (.str sdata) =>
      if sdata = "" then .ok (room, [])
      else
        match applyYUpdateE room.doc.ops (b64dec sdata) with
        | .error e => .error e
        | .ok ops =>
            let room' := { room with doc := { room.doc with ops := ops } }
            let effs := room'.clients.filterMap (fun e =>
              if e.1 ≠ client.userId ∧ e.2.wsOpen then
                some (Effect.send e.2.ws (.forwarded msg))
              else none)
            .ok (room', effs)
  | _ => .ok (room, [])

/-- `handleAwareness` (ws-server.ts lines 194–204): overwrite the
sender's name/color when the message carries truthy (non-empty) values,
then rebroadcast the full presence list. -/
def handleAwareness (room : Room) (client : ClientConnection)
    (msg : WSMessage) : Room × List Effect :=
  let client' :=
    { client with
      userName :=
        match msg.userName with
        | some n => if n = "" then client.userName else n
        | none => client.userName,
      userColor :=
        match msg.userColor with
        | some c => if c = "" then client.userColor else c
        | none => client.userColor }
  let clients' := room.clients.map (fun e =>
    if e.1 = client.userId then (e.1, client') else e)
  let room' := { room with clients := clients' }
  (room', broadcastPresenceEffects clients' "awareness" client.userId)

/-- `handleCursor` (ws-server.ts lines 206–222): store the cursor on the
sender's connection, then send a targeted cursor message to every other
open client. -/
def handleCursor (room : Room) (client : ClientConnection)
    (msg : WSMessage) : Room × List Effect :=
  let client' := { client with cursor := msg.cursor }
  let clients' := room.clients.map (fun e =>
    if e.1 = client.userId then (e.1, client') else e)
  let room' := { room with clients := clients' }
  let effs := clients'.filterMap (fun e =>
    if e.1 ≠ client.userId ∧ e.2.wsOpen then
      some (Effect.send e.2.ws
        (.cursorMsg msg.documentId client'.userId client'.userName
          client'.userColor client'.cursor))
    else none)
  (room', effs)

/-- `handleMessage` (ws-server.ts lines 150–177).  `parsed` is the
outcome of `JSON.parse` (`none` means it threw).  On a successful parse
the sender's `lastSeen` and the room's `lastActivity` are set before
dispatch, so those mutations survive a later exception; every exception
is caught, logged, and the handler returns — effects after the throw
point are lost. -/
def handleMessage (b64dec : String → List Nat) (room : Room)
    (client : ClientConnection) (parsed : Option WSMessage) (now : Nat) :
    Room × List Effect :=
  match parsed with
  | none => (room, [Effect.log "Error handling message"])
  | some msg =>
      let client1 := { client with lastSeen := now }
      let room1 :=
        { room with
          clients := room.clients.map (fun e =>
            if e.1 = client.userId then (e.1, client1) else e),
          lastActivity := now }
      if msg.type = "update" then
        match handleUpdate b64dec room1 client1 msg with
        | .ok res => res
        | .error _ => (room1, [Effect.log "Error handling message"])
      else if msg.type = "awareness" then handleAwareness room1 client1 msg
      else if msg.type = "cursor" then handleCursor room1 client1 msg
      else (room1, [Effect.log ("Unknown message type: " ++ msg.type)])

/-- `handleDisconnection` (ws-server.ts lines 224–242): drop the client
from its room, broadcast `leave`, and — when the room is now empty — arm
the 60,000ms deferred-destruction timer whose callback will look the room
up by `room.doc.guid`.  `documentId` is the registry key under which the
captured room object is stored. -/
def handleDisconnection (s : ServerState) (ws : Nat)
    (documentId userId : String) : ServerState × List Effect :=
  match lookupAssoc s.rooms documentId with
  | none => (s, [])
  | some room =>
      let room1 := { room with clients := eraseAssoc room.clients userId }
      let s1 : ServerState :=
        { rooms := setAssoc s.rooms documentId room1,
          clientToRoom := eraseAssoc s.clientToRoom ws }
      let effs := broadcastPresenceEffects room1.clients "leave" userId
      if room1.clients.isEmpty then
        (s1, effs ++ [Effect.armDestroyTimer roomDestroyDelayMs room1.doc.guid])
      else
        (s1, effs)

/-- The body of the deferred-destruction callback (ws-server.ts lines
234–239): look up `this.rooms.get(room.doc.guid)` — the guid of the doc
of the captured room — and, when a room with no clients is found there,
destroy its doc and delete that key. -/
def destroyTimerFire (s : ServerState) (capturedDocGuid : String) :
    ServerState × List Effect :=
  match lookupAssoc s.rooms capturedDocGuid with
  | some currentRoom =>
      if currentRoom.clients.isEmpty then
        ({ s with rooms := eraseAssoc s.rooms capturedDocGuid },
         [Effect.destroyDoc currentRoom.doc.guid])
      else (s, [])
  | none => (s, [])

/-- The per-room body of `cleanupStalePresence` (ws-server.ts lines
289–303), written as structural recursion over the yet-unvisited entries:
`kept` are the already-visited, fresh entries; a stale entry is closed
with code 4001, removed, and a `leave` presence update is broadcast over
the clients still in the map at that moment (`kept ++ rest`). -/
def sweepClients (now : Nat) (kept pending : List (String × ClientConnection)) :
    List (String × ClientConnection) × List Effect :=
  match pending with
  | [] => (kept, [])
  | e :: rest =>
      if PRESENCE_TIMEOUT < now - e.2.lastSeen then
        let effs := Effect.close e.2.ws 4001 "Connection timeout" ::
          broadcastPresenceEffects (kept ++ rest) "leave" e.1
        let res := sweepClients now kept rest
        (res.1, effs ++ res.2)
      else
        sweepClients now (kept ++ [e]) rest

/-- `cleanupStalePresence` restricted to one room. -/
def cleanupRoom (now : Nat) (room : Room) : Room × List Effect :=
  let res := sweepClients now [] room.clients
  ({ room with clients := res.1 }, res.2)

/-- `cleanupStalePresence` (ws-server.ts lines 289–303): sweep every
room; the per-eviction `clientToRoom.delete(client.ws)` calls are folded
into one filter over the closed sockets (deletions commute and nothing
reads the map in between). -/
def cleanupStalePresence (now : Nat) (s : ServerState) :
    ServerState × List Effect :=
  let results := s.rooms.map (fun kr => (kr.1, cleanupRoom now kr.2))
  let rooms' := results.map (fun kr => (kr.1, kr.2.1))
  let effs := (results.map (fun kr => kr.2.2)).flatten
  let closedWs := effs.filterMap (fun e =>
    match e with
    | .close w _ _ => some w
    | _ => none)
  ({ rooms := rooms',
     clientToRoom := s.clientToRoom.filter (fun e => ¬ e.1 ∈ closedWs) },
   effs)

/-! ## Helper lemmas -/

/-- Merging an update into an operation set (the body of
`applyYUpdateE`'s success case) collects exactly the union of the
operations. -/
theorem toFinset_mergeOps (a b : List Nat) :
    (a ++ b.filter (fun o => ¬ o ∈ a)).toFinset = a.toFinset ∪ b.toFinset := by
  ext x
  simp only [List.mem_toFinset, List.mem_append, List.mem_filter,
    decide_eq_true_eq, Finset.mem_union]
  tauto

/-- The canonical encoding depends only on the operation set. -/
theorem encodeYState_eq_of_toFinset_eq {u v : List Nat}
    (h : u.toFinset = v.toFinset) : encodeYState u = encodeYState v := by
  unfold encodeYState
  rw [h]

/-! ## Claims about the client provider -/

/-- C9: merging is order-independent — for every pair of encoded states
`s1` and `s2`, applying them to a fresh replica in the order `(s1, s2)`
and in the order `(s2, s1)` yields byte-for-byte equal encoded result
states (`mergeYjsStates` is commutative up to encoding equality); when
either apply throws, both orders throw identically. -/
theorem mergeYjsStates_comm (s1 s2 : List Nat) :
    mergeYjsStates s1 s2 = mergeYjsStates s2 s1 := by
  cases h1 : decodeYUpdate s1 with
  | none =>
      cases h2 : decodeYUpdate s2 with
      | none => simp [mergeYjsStates, applyYUpdateE, h1, h2]
      | some ops2 => simp [mergeYjsStates, applyYUpdateE, h1, h2]
  | some ops1 =>
      cases h2 : decodeYUpdate s2 with
      | none => simp [mergeYjsStates, applyYUpdateE, h1, h2]
      | some ops2 =>
          simp only [mergeYjsStates, applyYUpdateE, h1, h2]
          exact congrArg Except.ok (encodeYState_eq_of_toFinset_eq (by
            ext x
            simp only [List.mem_toFinset, List.mem_append, List.mem_filter,
              decide_eq_true_eq, List.not_mem_nil, List.nil_append]
            tauto))

/-- C10: `YjsDocumentProvider.applyUpdate` and
`YjsDocumentProvider.loadInitialState` are extensionally equal — both
perform exactly the merge of the bytes into the local replica and change
nothing else in the provider's state. -/
theorem applyUpdate_eq_loadInitialState (s : ProviderState) (u : List Nat)
    (s' : ProviderState)
    (h : YjsDocumentProvider.applyUpdate s u = .ok s') :
    YjsDocumentProvider.applyUpdate s u =
      YjsDocumentProvider.loadInitialState s u ∧
    applyYUpdateE s.ydocOps u = .ok s'.ydocOps ∧
    s' = { s with ydocOps := s'.ydocOps } := by
  refine ⟨rfl, ?_⟩
  unfold YjsDocumentProvider.applyUpdate at h
  cases ha : applyYUpdateE s.ydocOps u with
  | error e => rw [ha] at h; cases h
  | ok ops =>
      rw [ha] at h
      injection h with h2
      subst h2
      exact ⟨rfl, rfl⟩

/-- Witness for C10 at a concrete provider state and update. -/
theorem applyUpdate_eq_loadInitialState_w :
    YjsDocumentProvider.applyUpdate ⟨[], 0, false, false⟩ [0, 7] =
      YjsDocumentProvider.loadInitialState ⟨[], 0, false, false⟩ [0, 7] ∧
    applyYUpdateE ([] : List Nat) [0, 7] = .ok [7] ∧
    (⟨[7], 0, false, false⟩ : ProviderState) = ⟨[7], 0, false, false⟩ :=
  applyUpdate_eq_loadInitialState ⟨[], 0, false, false⟩ [0, 7]
    ⟨[7], 0, false, false⟩ rfl

/-- C4: for every reconnection attempt `n` (1 ≤ n ≤ 10) the scheduled
retry delay equals `min(1000 · 2^(n-1), 30000)` ms and the counter
becomes `n`; no retry is scheduled once the counter has reached the
ceiling of 10; and reaching `connected` resets the counter to zero. -/
theorem reconnectBackoffDelay (n : Nat) (h1 : 1 ≤ n) (h2 : n ≤ 10)
    (s : ProviderState) (hs : s.reconnectAttempts = n - 1) :
    (handleDisconnect s).2 =
      [.scheduleReconnect (min (1000 * 2 ^ (n - 1)) 30000)] ∧
    (handleDisconnect s).1.reconnectAttempts = n ∧
    (∀ s' : ProviderState, maxReconnectAttempts ≤ s'.reconnectAttempts →
      ∀ d, PEffect.scheduleReconnect d ∉ (handleDisconnect s').2) ∧
    ∀ s'' : ProviderState,
      (onStatusEvent s'' .connected).1.reconnectAttempts = 0 := by
  have hlt : ¬ maxReconnectAttempts ≤ n - 1 := by
    unfold maxReconnectAttempts; omega
  refine ⟨?_, ?_, ?_, ?_⟩
  · simp [handleDisconnect, hs, ge_iff_le, hlt]
  · simp [handleDisconnect, hs, ge_iff_le, hlt]; omega
  · intro s' h d
    simp [handleDisconnect, ge_iff_le, h]
  · intro s''
    rfl

/-- Witness for C4 at attempt `n = 5` (counter 4): delay 16,000ms. -/
theorem reconnectBackoffDelay_w :
    (handleDisconnect ⟨[], 4, false, false⟩).2 =
      [.scheduleReconnect (min (1000 * 2 ^ (5 - 1)) 30000)] ∧
    (handleDisconnect ⟨[], 4, false, false⟩).1.reconnectAttempts = 5 ∧
    (∀ s' : ProviderState, maxReconnectAttempts ≤ s'.reconnectAttempts →
      ∀ d, PEffect.scheduleReconnect d ∉ (handleDisconnect s').2) ∧
    ∀ s'' : ProviderState,
      (onStatusEvent s'' .connected).1.reconnectAttempts = 0 :=
  reconnectBackoffDelay 5 (by decide) (by decide) ⟨[], 4, false, false⟩ rfl

/-- C7 counterexample: with the counter at the ceiling (10), the
ceiling branch of `handleDisconnect` emits only a console log — no
effect of it is a callback into the provider's caller, so no terminal
error is reported to the caller. -/
theorem reconnectCeiling_noCallerReport :
    (handleDisconnect ⟨[], 10, false, false⟩).2 =
      [.consoleError "Max reconnection attempts reached"] ∧
    ((handleDisconnect ⟨[], 10, false, false⟩).2.filter
      (fun e => e.isCallerCallback)) = [] := by
  exact ⟨rfl, rfl⟩

/-- C7 amended: once the counter has reached the ceiling, the provider
schedules no further reconnection attempts, leaves its state unchanged,
and logs the terminal condition to the console; none of the emitted
effects is a callback to the provider's caller. -/
theorem reconnectCeiling_stopsRetrying (s : ProviderState)
    (h : maxReconnectAttempts ≤ s.reconnectAttempts) :
    (handleDisconnect s).1 = s ∧
    (handleDisconnect s).2 =
      [.consoleError "Max reconnection attempts reached"] ∧
    (∀ d, PEffect.scheduleReconnect d ∉ (handleDisconnect s).2) ∧
    ((handleDisconnect s).2.filter (fun e => e.isCallerCallback)) = [] := by
  refine ⟨?_, ?_, ?_, ?_⟩ <;>
    simp [handleDisconnect, ge_iff_le, h, PEffect.isCallerCallback]

/-- Witness for the amended C7 at counter 10. -/
theorem reconnectCeiling_stopsRetrying_w :
    (handleDisconnect ⟨[], 10, false, false⟩).1 = ⟨[], 10, false, false⟩ ∧
    (handleDisconnect ⟨[], 10, false, false⟩).2 =
      [.consoleError "Max reconnection attempts reached"] ∧
    (∀ d, PEffect.scheduleReconnect d ∉
      (handleDisconnect ⟨[], 10, false, false⟩).2) ∧
    ((handleDisconnect ⟨[], 10, false, false⟩).2.filter
      (fun e => e.isCallerCallback)) = [] :=
  reconnectCeiling_stopsRetrying ⟨[], 10, false, false⟩ (by decide)

/-! ## Claims about the collaboration server -/

/-- C8: a connection whose request URL yields an empty document id is
refused with close code 4000 and the server state is untouched — no room
is created and no connection is registered. -/
theorem emptyDocumentIdRejected (b64enc : List Nat → String)
    (s : ServerState) (ws : Nat) (wsOpen : Bool) (pathname : String)
    (queryUserId : Option String) (generatedId userColor guid : String)
    (now : Nat) (h : pathname.drop 1 = "") :
    onConnectionUpgrade b64enc s ws wsOpen pathname queryUserId generatedId
      userColor guid now =
      (s, [Effect.close ws 4000 "Document ID required"]) := by
  unfold onConnectionUpgrade
  simp [h]

/-- Witness for C8: a request whose pathname is just `/`. -/
theorem emptyDocumentIdRejected_w :
    onConnectionUpgrade (fun _ => "") ⟨[], []⟩ 1 true "/" none "gen" "#FF6B6B"
      "g1" 0 = (⟨[], []⟩, [Effect.close 1 4000 "Document ID required"]) :=
  emptyDocumentIdRejected (fun _ => "") ⟨[], []⟩ 1 true "/" none "gen"
    "#FF6B6B" "g1" 0 (by decide)

/-- C2 amended: an inbound `update` message with a non-empty string data
field (the empty string is falsy in JavaScript and silently dropped by
the guard) is first applied to the room's document state and then
forwarded — as the very message object that was received, hence with a
byte-identical payload, never re-encoded — to every other open
connection in the room, and never to the sender.  `hws` states the
source's aliasing invariant that the dispatched `client` is the room's
registered connection for its socket. -/
theorem updateAppliedAndForwarded (b64dec : String → List Nat) (room : Room)
    (client : ClientConnection) (msg : WSMessage) (sdata : String)
    (now : Nat) (newOps : List Nat)
    (hty : msg.type = "update")
    (hdata : msg.data = some (.str sdata))
    (hne : sdata ≠ "")
    (happly : applyYUpdateE room.doc.ops (b64dec sdata) = .ok newOps)
    (hws : ∀ e ∈ room.clients, e.2.ws = client.ws → e.1 = client.userId) :
    (handleMessage b64dec room client (some msg) now).1.doc.ops = newOps ∧
    (∀ eff ∈ (handleMessage b64dec room client (some msg) now).2,
      ∃ w, eff = Effect.send w (.forwarded msg)) ∧
    (∀ e ∈ room.clients, e.1 ≠ client.userId → e.2.wsOpen →
      Effect.send e.2.ws (.forwarded msg) ∈
        (handleMessage b64dec room client (some msg) now).2) ∧
    ∀ m : OutMsg, Effect.send client.ws m ∉
        (handleMessage b64dec room client (some msg) now).2 := by
  have hred : handleMessage b64dec room client (some msg) now =
      ({ doc := { room.doc with ops := newOps },
         clients := room.clients.map (fun e =>
           if e.1 = client.userId then
             (e.1, { client with lastSeen := now }) else e),
         lastActivity := now },
       (room.clients.map (fun e =>
           if e.1 = client.userId then
             (e.1, { client with lastSeen := now }) else e)).filterMap
         (fun e => if e.1 ≠ client.userId ∧ e.2.wsOpen then
             some (Effect.send e.2.ws (.forwarded msg)) else none)) := by
    simp only [handleMessage, hty, handleUpdate, hdata, hne, happly,
      if_true, if_false]
  rw [hred]
  refine ⟨rfl, ?_, ?_, ?_⟩
  · intro eff heff
    simp only [List.mem_filterMap] at heff
    obtain ⟨e, _, hfe⟩ := heff
    by_cases hc : e.1 ≠ client.userId ∧ e.2.wsOpen
    · rw [if_pos hc] at hfe
      exact ⟨e.2.ws, (Option.some.inj hfe).symm⟩
    · rw [if_neg hc] at hfe
      cases hfe
  · intro e he hne hopen
    refine List.mem_filterMap.mpr ⟨e, ?_, ?_⟩
    · exact List.mem_map.mpr ⟨e, he, by rw [if_neg hne]⟩
    · rw [if_pos ⟨hne, hopen⟩]
  · intro m hmem
    simp only [List.mem_filterMap, List.mem_map] at hmem
    obtain ⟨a, ⟨e0, he0, hfe0⟩, hfa⟩ := hmem
    by_cases hc : a.1 ≠ client.userId ∧ a.2.wsOpen
    · rw [if_pos hc] at hfa
      have hw : a.2.ws = client.ws := by
        have h2 := Option.some.inj hfa
        rw [Effect.send.injEq] at h2
        exact h2.1
      by_cases h0 : e0.1 = client.userId
      · rw [if_pos h0] at hfe0
        exact hc.1 (by rw [← hfe0]; exact h0)
      · rw [if_neg h0] at hfe0
        exact h0 (hws e0 he0 (by rw [hfe0]; exact hw))
    · rw [if_neg hc] at hfa
      cases hfa

/-- C3: when applying an update's bytes throws, the update is logged and
dropped — the room's document state is unchanged, nothing is forwarded to
any connection, and no socket (in particular the sender's) is closed. -/
theorem corruptUpdateDropped (b64dec : String → List Nat) (room : Room)
    (client : ClientConnection) (msg : WSMessage) (sdata : String)
    (now : Nat) (err : String)
    (hty : msg.type = "update")
    (hdata : msg.data = some (.str sdata))
    (hne : sdata ≠ "")
    (happly : applyYUpdateE room.doc.ops (b64dec sdata) = .error err) :
    (handleMessage b64dec room client (some msg) now).1.doc = room.doc ∧
    (handleMessage b64dec room client (some msg) now).2 =
      [Effect.log "Error handling message"] ∧
    (∀ w m, Effect.send w m ∉
      (handleMessage b64dec room client (some msg) now).2) ∧
    ∀ w code reason, Effect.close w code reason ∉
      (handleMessage b64dec room client (some msg) now).2 := by
  have hred : handleMessage b64dec room client (some msg) now =
      ({ room with
         clients := room.clients.map (fun e =>
           if e.1 = client.userId then
             (e.1, { client with lastSeen := now }) else e),
         lastActivity := now },
       [Effect.log "Error handling message"]) := by
    simp only [handleMessage, hty, handleUpdate, hdata, hne, happly,
      if_true, if_false]
  rw [hred]
  refine ⟨rfl, rfl, ?_, ?_⟩ <;> intro w m <;> simp

/-- Concrete sender for the C2 witness. -/
def c2Alice : ClientConnection := ⟨1, true, "alice", "Anonymous", "#FF6B6B", 0, none⟩

/-- Concrete second room member for the C2 witness. -/
def c2Bob : ClientConnection := ⟨2, true, "bob", "Anonymous", "#4ECDC4", 0, none⟩

/-- Concrete room for the C2 witness. -/
def c2Room : Room := ⟨⟨"g1", []⟩, [("alice", c2Alice), ("bob", c2Bob)], 0⟩

/-- Concrete inbound update message for the C2 witness. -/
def c2Msg : WSMessage := ⟨"update", "doc1", some (.str "AAU="), none, none, none, none⟩

/-- Witness for C2: a two-member room, `alice` sends a valid update. -/
theorem updateAppliedAndForwarded_w :
    (handleMessage (fun _ => [0, 5]) c2Room c2Alice (some c2Msg) 9).1.doc.ops = [5] ∧
    (∀ eff ∈ (handleMessage (fun _ => [0, 5]) c2Room c2Alice (some c2Msg) 9).2,
      ∃ w, eff = Effect.send w (.forwarded c2Msg)) ∧
    (∀ e ∈ c2Room.clients, e.1 ≠ c2Alice.userId → e.2.wsOpen →
      Effect.send e.2.ws (.forwarded c2Msg) ∈
        (handleMessage (fun _ => [0, 5]) c2Room c2Alice (some c2Msg) 9).2) ∧
    ∀ m : OutMsg, Effect.send c2Alice.ws m ∉
        (handleMessage (fun _ => [0, 5]) c2Room c2Alice (some c2Msg) 9).2 :=
  updateAppliedAndForwarded (fun _ => [0, 5]) c2Room c2Alice c2Msg "AAU=" 9 [5]
    rfl rfl (by decide) rfl (by decide)

/-- Concrete sender for the C2 counterexample. -/
def c2eAlice : ClientConnection := ⟨1, true, "alice", "Anonymous", "#FF6B6B", 0, none⟩

/-- Concrete room for the C2 counterexample; `bob` (socket 2) is another
open member who, per the claim, should receive every string-data update. -/
def c2eRoom : Room := ⟨⟨"g1", [3]⟩, [("alice", c2eAlice), ("bob", ⟨2, true, "bob", "Anonymous", "#4ECDC4", 0, none⟩)], 0⟩

/-- An update message whose data field is the empty string — a string,
and valid base64 (of zero bytes). -/
def c2eMsg : WSMessage := ⟨"update", "doc1", some (.str ""), none, none, none, none⟩

/-- C2 counterexample: an `update` message carrying the empty string is
a message "whose data field is a (base64) string", yet the falsy guard
`!message.data` drops it silently: the room's document state is not
touched and nothing is forwarded to the other open connection (`b64dec`
is `fun _ => []`, the real decoder's value on `""`). -/
theorem emptyStringUpdateDropped :
    (handleMessage (fun _ => []) c2eRoom c2eAlice (some c2eMsg) 9).1.doc.ops
        = c2eRoom.doc.ops ∧
    (handleMessage (fun _ => []) c2eRoom c2eAlice (some c2eMsg) 9).2 = [] ∧
    Effect.send 2 (.forwarded c2eMsg) ∉
      (handleMessage (fun _ => []) c2eRoom c2eAlice (some c2eMsg) 9).2 := by
  refine ⟨rfl, rfl, by decide⟩

/-- Concrete sender for the C3 witness. -/
def c3Alice : ClientConnection := ⟨1, true, "alice", "Anonymous", "#FF6B6B", 0, none⟩

/-- Concrete room for the C3 witness. -/
def c3Room : Room := ⟨⟨"g1", [3]⟩, [("alice", c3Alice), ("bob", ⟨2, true, "bob", "Anonymous", "#4ECDC4", 0, none⟩)], 0⟩

/-- Concrete corrupt inbound update message for the C3 witness. -/
def c3Msg : WSMessage := ⟨"update", "doc1", some (.str "!!"), none, none, none, none⟩

/-- Witness for C3: the decoded bytes `[1]` are corrupt (no header byte),
the apply throws, and the message is dropped. -/
theorem corruptUpdateDropped_w :
    (handleMessage (fun _ => [1]) c3Room c3Alice (some c3Msg) 9).1.doc = c3Room.doc ∧
    (handleMessage (fun _ => [1]) c3Room c3Alice (some c3Msg) 9).2 =
      [Effect.log "Error handling message"] ∧
    (∀ w m, Effect.send w m ∉
      (handleMessage (fun _ => [1]) c3Room c3Alice (some c3Msg) 9).2) ∧
    ∀ w code reason, Effect.close w code reason ∉
      (handleMessage (fun _ => [1]) c3Room c3Alice (some c3Msg) 9).2 :=
  corruptUpdateDropped (fun _ => [1]) c3Room c3Alice c3Msg "!!" 9
    "Integer out of range!" rfl rfl (by decide) rfl

/-- Connection present in the C1 scenario. -/
def c1Client : ClientConnection := ⟨1, true, "u1", "Anonymous", "#FF6B6B", 0, none⟩

/-- The C1 room, registered under document id `"doc1"`; its doc carries
the random guid `"0f3c-guid-4a"`. -/
def c1Room : Room := ⟨⟨"0f3c-guid-4a", []⟩, [("u1", c1Client)], 0⟩

/-- The C1 server state before the last disconnect. -/
def c1State : ServerState := ⟨[("doc1", c1Room)], [(1, "doc1")]⟩

/-- The C1 server state after the last disconnect: the room survives,
empty, still registered under `"doc1"`. -/
def c1After : ServerState := ⟨[("doc1", { c1Room with clients := [] })], []⟩

/-- C1 (code bug): when the last client of `"doc1"` disconnects, the
60,000ms timer is armed and its callback captures the doc's random guid
`"0f3c-guid-4a"`; firing it looks that guid up in a registry keyed by
document ids, misses, and therefore neither destroys the doc nor removes
the room — the registry still maps `"doc1"` to the empty room. -/
theorem emptyRoomNeverDestroyed :
    handleDisconnection c1State 1 "doc1" "u1" =
      (c1After, [Effect.armDestroyTimer 60000 "0f3c-guid-4a"]) ∧
    destroyTimerFire c1After "0f3c-guid-4a" = (c1After, []) ∧
    lookupAssoc (destroyTimerFire c1After "0f3c-guid-4a").1.rooms "doc1" =
      some { c1Room with clients := [] } := by
  refine ⟨?_, ?_, ?_⟩ <;> rfl

/-- Looking up the key just written by `setAssoc` returns the new value. -/
theorem lookupAssoc_setAssoc {κ α : Type} [DecidableEq κ]
    (l : List (κ × α)) (k : κ) (v : α) :
    lookupAssoc (setAssoc l k v) k = some v := by
  unfold lookupAssoc setAssoc
  by_cases h : l.any (fun e => e.1 = k)
  · rw [if_pos h]
    induction l with
    | nil => simp at h
    | cons e rest ih =>
        by_cases he : e.1 = k
        · simp [List.find?, he]
        · have hrest : rest.any (fun e => decide (e.1 = k)) = true := by
            rcases List.any_eq_true.mp h with ⟨x, hx, hxk⟩
            rcases List.mem_cons.mp hx with hx' | hx'
            · exact absurd (of_decide_eq_true hxk) (by rw [hx']; exact he)
            · exact List.any_eq_true.mpr ⟨x, hx', hxk⟩
          simpa [List.find?, he] using ih hrest
  · rw [if_neg h]
    have hnone : l.find? (fun e => decide (e.1 = k)) = none := by
      rw [List.find?_eq_none]
      intro x hx
      simp only [decide_eq_true_eq]
      intro hk
      exact h (List.any_eq_true.mpr ⟨x, hx, by simp [hk]⟩)
    rw [List.find?_append, hnone]
    simp [List.find?]

/-- Every open member of a client map receives the presence broadcast. -/
theorem mem_broadcastPresenceEffects
    (clients : List (String × ClientConnection)) (action userId : String)
    (e : String × ClientConnection) (he : e ∈ clients) (hopen : e.2.wsOpen) :
    Effect.send e.2.ws (.presence action userId (presenceListOf clients)) ∈
      broadcastPresenceEffects clients action userId := by
  unfold broadcastPresenceEffects
  exact List.mem_filterMap.mpr ⟨e, he, by rw [if_pos hopen]⟩

/-- The connection record `handleConnection` registers. -/
def newClient (ws : Nat) (wsOpen : Bool) (userId userColor : String)
    (now : Nat) : ClientConnection :=
  ⟨ws, wsOpen, userId, "Anonymous", userColor, now, none⟩

/-- The room as it stands right after `handleConnection` inserts the new
client (the state `sendInitialSync` and the join broadcast read). -/
def roomAfterJoin (s : ServerState) (documentId guid : String) (now : Nat)
    (ws : Nat) (wsOpen : Bool) (userId userColor : String) : Room :=
  let room := (getOrCreateRoom s documentId guid now).1
  { room with
    clients := setAssoc room.clients userId
      (newClient ws wsOpen userId userColor now) }

/-- C6 counterexample: with `alice` already in room `"doc1"`, `bob`
connects on socket 2 — and the `join` presence update is sent to the
newly joined client `bob` as well (the broadcast loop runs over every
client now in the room, including the one just added). -/
theorem joinBroadcastReachesNewClient :
    Effect.send 2 (.presence "join" "bob"
      [⟨"alice", "Anonymous", "#FF6B6B", none⟩,
       ⟨"bob", "Anonymous", "#4ECDC4", none⟩]) ∈
      (handleConnection (fun _ => "") ⟨[("doc1", ⟨⟨"g1", []⟩,
        [("alice", ⟨1, true, "alice", "Anonymous", "#FF6B6B", 0, none⟩)], 0⟩)],
        [(1, "doc1")]⟩ 2 true "doc1" "bob" "#4ECDC4" "g2" 5).2 := by
  decide

/-- C6 amended: on every successful connection the server registers the
connection under the participant id, immediately sends the client a
`sync` message with the room's full-state encoding followed by an
`awareness` message with the full presence list, and broadcasts a `join`
presence update to every open member of the room — including the newly
joined client itself. -/
theorem connectRegistersAndAnnounces (b64enc : List Nat → String)
    (s : ServerState) (ws : Nat) (wsOpen : Bool)
    (documentId userId userColor guid : String) (now : Nat) :
    lookupAssoc (handleConnection b64enc s ws wsOpen documentId userId
        userColor guid now).1.rooms documentId =
      some (roomAfterJoin s documentId guid now ws wsOpen userId userColor) ∧
    lookupAssoc (roomAfterJoin s documentId guid now ws wsOpen userId
        userColor).clients userId =
      some (newClient ws wsOpen userId userColor now) ∧
    lookupAssoc (handleConnection b64enc s ws wsOpen documentId userId
        userColor guid now).1.clientToRoom ws = some documentId ∧
    (handleConnection b64enc s ws wsOpen documentId userId userColor guid
        now).2 =
      [Effect.send ws (.sync (b64enc (encodeYState
          (roomAfterJoin s documentId guid now ws wsOpen userId
            userColor).doc.ops))),
       Effect.send ws (.awarenessList (presenceListOf
          (roomAfterJoin s documentId guid now ws wsOpen userId
            userColor).clients))] ++
      broadcastPresenceEffects
        (roomAfterJoin s documentId guid now ws wsOpen userId
          userColor).clients "join" userId ∧
    ∀ e ∈ (roomAfterJoin s documentId guid now ws wsOpen userId
        userColor).clients, e.2.wsOpen →
      Effect.send e.2.ws (.presence "join" userId (presenceListOf
        (roomAfterJoin s documentId guid now ws wsOpen userId
          userColor).clients)) ∈
        (handleConnection b64enc s ws wsOpen documentId userId userColor
          guid now).2 := by
  have hred : handleConnection b64enc s ws wsOpen documentId userId
      userColor guid now =
      ({ rooms := setAssoc (getOrCreateRoom s documentId guid now).2.rooms
            documentId
            (roomAfterJoin s documentId guid now ws wsOpen userId userColor),
         clientToRoom := setAssoc
            (getOrCreateRoom s documentId guid now).2.clientToRoom ws
            documentId },
       [Effect.send ws (.sync (b64enc (encodeYState
            (roomAfterJoin s documentId guid now ws wsOpen userId
              userColor).doc.ops))),
        Effect.send ws (.awarenessList (presenceListOf
            (roomAfterJoin s documentId guid now ws wsOpen userId
              userColor).clients))] ++
       broadcastPresenceEffects
          (roomAfterJoin s documentId guid now ws wsOpen userId
            userColor).clients "join" userId) := by
    simp only [handleConnection, roomAfterJoin, newClient]
  rw [hred]
  refine ⟨lookupAssoc_setAssoc _ _ _, ?_, lookupAssoc_setAssoc _ _ _, rfl, ?_⟩
  · unfold roomAfterJoin
    exact lookupAssoc_setAssoc _ _ _
  · intro e he hopen'
    exact List.mem_append_right _
      (mem_broadcastPresenceEffects _ "join" userId e he hopen')

/-- Witness for the amended C6: `bob` joins `alice`'s room. -/
theorem connectRegistersAndJoins_w :
    lookupAssoc (handleConnection (fun _ => "") ⟨[("doc1", ⟨⟨"g1", []⟩,
        [("alice", ⟨1, true, "alice", "Anonymous", "#FF6B6B", 0, none⟩)], 0⟩)],
        [(1, "doc1")]⟩ 2 true "doc1" "bob" "#4ECDC4" "g2" 5).1.rooms "doc1" =
      some (roomAfterJoin ⟨[("doc1", ⟨⟨"g1", []⟩,
        [("alice", ⟨1, true, "alice", "Anonymous", "#FF6B6B", 0, none⟩)], 0⟩)],
        [(1, "doc1")]⟩ "doc1" "g2" 5 2 true "bob" "#4ECDC4") ∧
    lookupAssoc (roomAfterJoin ⟨[("doc1", ⟨⟨"g1", []⟩,
        [("alice", ⟨1, true, "alice", "Anonymous", "#FF6B6B", 0, none⟩)], 0⟩)],
        [(1, "doc1")]⟩ "doc1" "g2" 5 2 true "bob" "#4ECDC4").clients "bob" =
      some (newClient 2 true "bob" "#4ECDC4" 5) ∧
    lookupAssoc (handleConnection (fun _ => "") ⟨[("doc1", ⟨⟨"g1", []⟩,
        [("alice", ⟨1, true, "alice", "Anonymous", "#FF6B6B", 0, none⟩)], 0⟩)],
        [(1, "doc1")]⟩ 2 true "doc1" "bob" "#4ECDC4" "g2" 5).1.clientToRoom 2 =
      some "doc1" ∧
    (handleConnection (fun _ => "") ⟨[("doc1", ⟨⟨"g1", []⟩,
        [("alice", ⟨1, true, "alice", "Anonymous", "#FF6B6B", 0, none⟩)], 0⟩)],
        [(1, "doc1")]⟩ 2 true "doc1" "bob" "#4ECDC4" "g2" 5).2 =
      [Effect.send 2 (.sync ((fun _ => "") (encodeYState
          (roomAfterJoin ⟨[("doc1", ⟨⟨"g1", []⟩,
            [("alice", ⟨1, true, "alice", "Anonymous", "#FF6B6B", 0, none⟩)], 0⟩)],
            [(1, "doc1")]⟩ "doc1" "g2" 5 2 true "bob" "#4ECDC4").doc.ops))),
       Effect.send 2 (.awarenessList (presenceListOf
          (roomAfterJoin ⟨[("doc1", ⟨⟨"g1", []⟩,
            [("alice", ⟨1, true, "alice", "Anonymous", "#FF6B6B", 0, none⟩)], 0⟩)],
            [(1, "doc1")]⟩ "doc1" "g2" 5 2 true "bob" "#4ECDC4").clients))] ++
      broadcastPresenceEffects
        (roomAfterJoin ⟨[("doc1", ⟨⟨"g1", []⟩,
          [("alice", ⟨1, true, "alice", "Anonymous", "#FF6B6B", 0, none⟩)], 0⟩)],
          [(1, "doc1")]⟩ "doc1" "g2" 5 2 true "bob" "#4ECDC4").clients
        "join" "bob" ∧
    ∀ e ∈ (roomAfterJoin ⟨[("doc1", ⟨⟨"g1", []⟩,
        [("alice", ⟨1, true, "alice", "Anonymous", "#FF6B6B", 0, none⟩)], 0⟩)],
        [(1, "doc1")]⟩ "doc1" "g2" 5 2 true "bob" "#4ECDC4").clients,
      e.2.wsOpen →
      Effect.send e.2.ws (.presence "join" "bob" (presenceListOf
        (roomAfterJoin ⟨[("doc1", ⟨⟨"g1", []⟩,
          [("alice", ⟨1, true, "alice", "Anonymous", "#FF6B6B", 0, none⟩)], 0⟩)],
          [(1, "doc1")]⟩ "doc1" "g2" 5 2 true "bob" "#4ECDC4").clients)) ∈
        (handleConnection (fun _ => "") ⟨[("doc1", ⟨⟨"g1", []⟩,
          [("alice", ⟨1, true, "alice", "Anonymous", "#FF6B6B", 0, none⟩)], 0⟩)],
          [(1, "doc1")]⟩ 2 true "doc1" "bob" "#4ECDC4" "g2" 5).2 :=
  connectRegistersAndAnnounces (fun _ => "") ⟨[("doc1", ⟨⟨"g1", []⟩,
    [("alice", ⟨1, true, "alice", "Anonymous", "#FF6B6B", 0, none⟩)], 0⟩)],
    [(1, "doc1")]⟩ 2 true "doc1" "bob" "#4ECDC4" "g2" 5

/-- A presence broadcast contains only `send` effects, never a `close`. -/
theorem close_not_mem_broadcast
    (clients : List (String × ClientConnection)) (action userId : String)
    (w code : Nat) (reason : String) :
    Effect.close w code reason ∉
      broadcastPresenceEffects clients action userId := by
  unfold broadcastPresenceEffects
  intro hmem
  rcases List.mem_filterMap.mp hmem with ⟨x, _, hx⟩
  by_cases hb : x.2.wsOpen
  · rw [if_pos hb] at hx
    exact Effect.noConfusion (Option.some.inj hx)
  · rw [if_neg hb] at hx
    cases hx

/-- The surviving client list of a sweep: the already-kept entries
followed by the fresh entries of the pending list, in order. -/
theorem sweepClients_fst (now : Nat)
    (kept pending : List (String × ClientConnection)) :
    (sweepClients now kept pending).1 =
      kept ++ pending.filter
        (fun e => ¬ PRESENCE_TIMEOUT < now - e.2.lastSeen) := by
  induction pending generalizing kept with
  | nil => simp [sweepClients]
  | cons e rest ih =>
      by_cases h : PRESENCE_TIMEOUT < now - e.2.lastSeen
      · have hstep : (sweepClients now kept (e :: rest)).1 =
            (sweepClients now kept rest).1 := by
          simp only [sweepClients, if_pos h]
        rw [hstep, ih, List.filter_cons_of_neg (by simp [h])]
      · have hstep : (sweepClients now kept (e :: rest)).1 =
            (sweepClients now (kept ++ [e]) rest).1 := by
          simp only [sweepClients, if_neg h]
        rw [hstep, ih, List.filter_cons_of_pos (by simp [h]),
          List.append_assoc, List.singleton_append]

/-- A stale entry of the pending list gets its socket closed with code
4001. -/
theorem stale_close_mem_sweep (now : Nat)
    (kept pending : List (String × ClientConnection))
    (e : String × ClientConnection) (he : e ∈ pending)
    (hst : PRESENCE_TIMEOUT < now - e.2.lastSeen) :
    Effect.close e.2.ws 4001 "Connection timeout" ∈
      (sweepClients now kept pending).2 := by
  induction pending generalizing kept with
  | nil => cases he
  | cons a rest ih =>
      by_cases h : PRESENCE_TIMEOUT < now - a.2.lastSeen
      · rcases List.mem_cons.mp he with rfl | he'
        · simp only [sweepClients, if_pos h, List.cons_append]
          exact List.mem_cons_self _ _
        · simp only [sweepClients, if_pos h, List.cons_append]
          exact List.mem_cons_of_mem _
            (List.mem_append_right _ (ih kept he'))
      · have he' : e ∈ rest := by
          rcases List.mem_cons.mp he with rfl | he'
          · exact absurd hst h
          · exact he'
        simp only [sweepClients, if_neg h]
        exact ih (kept ++ [a]) he'

/-- Every `close` effect of a sweep originates from a stale pending
entry and carries that entry's socket. -/
theorem close_mem_sweep_source (now : Nat)
    (kept pending : List (String × ClientConnection))
    (w code : Nat) (reason : String)
    (hm : Effect.close w code reason ∈ (sweepClients now kept pending).2) :
    ∃ e ∈ pending, PRESENCE_TIMEOUT < now - e.2.lastSeen ∧ e.2.ws = w := by
  induction pending generalizing kept with
  | nil => simp [sweepClients] at hm
  | cons a rest ih =>
      by_cases h : PRESENCE_TIMEOUT < now - a.2.lastSeen
      · simp only [sweepClients, if_pos h, List.cons_append, List.mem_cons,
          List.mem_append] at hm
        rcases hm with heq | hm | hm
        · rw [Effect.close.injEq] at heq
          exact ⟨a, List.mem_cons_self _ _, h, heq.1.symm⟩
        · exact absurd hm (close_not_mem_broadcast _ _ _ _ _ _)
        · obtain ⟨e, he, h1, h2⟩ := ih kept hm
          exact ⟨e, List.mem_cons_of_mem _ he, h1, h2⟩
      · simp only [sweepClients, if_neg h] at hm
        obtain ⟨e, he, h1, h2⟩ := ih (kept ++ [a]) hm
        exact ⟨e, List.mem_cons_of_mem _ he, h1, h2⟩

/-- When a stale entry is evicted, every fresh open member of the room
receives a `leave` presence update carrying the evicted participant id. -/
theorem leave_broadcast_mem_sweep (now : Nat)
    (kept pending : List (String × ClientConnection))
    (e : String × ClientConnection) (he : e ∈ pending)
    (hst : PRESENCE_TIMEOUT < now - e.2.lastSeen)
    (f : String × ClientConnection) (hf : f ∈ kept ++ pending)
    (hfresh : ¬ PRESENCE_TIMEOUT < now - f.2.lastSeen)
    (hopen : f.2.wsOpen) :
    ∃ l, Effect.send f.2.ws (.presence "leave" e.1 l) ∈
      (sweepClients now kept pending).2 := by
  induction pending generalizing kept with
  | nil => cases he
  | cons a rest ih =>
      by_cases h : PRESENCE_TIMEOUT < now - a.2.lastSeen
      · rcases List.mem_cons.mp he with rfl | he'
        · have hf' : f ∈ kept ++ rest := by
            rcases List.mem_append.mp hf with hk | hp
            · exact List.mem_append_left _ hk
            · rcases List.mem_cons.mp hp with rfl | hp'
              · exact absurd h hfresh
              · exact List.mem_append_right _ hp'
          refine ⟨presenceListOf (kept ++ rest), ?_⟩
          simp only [sweepClients, if_pos h, List.cons_append]
          exact List.mem_cons_of_mem _ (List.mem_append_left _
            (mem_broadcastPresenceEffects _ "leave" e.1 f hf' hopen))
        · have hf' : f ∈ kept ++ rest := by
            rcases List.mem_append.mp hf with hk | hp
            · exact List.mem_append_left _ hk
            · rcases List.mem_cons.mp hp with rfl | hp'
              · exact absurd h hfresh
              · exact List.mem_append_right _ hp'
          obtain ⟨l, hl⟩ := ih kept he' hf'
          refine ⟨l, ?_⟩
          simp only [sweepClients, if_pos h, List.cons_append]
          exact List.mem_cons_of_mem _ (List.mem_append_right _ hl)
      · have he' : e ∈ rest := by
          rcases List.mem_cons.mp he with rfl | he'
          · exact absurd hst h
          · exact he'
        have hf' : f ∈ (kept ++ [a]) ++ rest := by
          rw [List.append_assoc]
          simpa using hf
        obtain ⟨l, hl⟩ := ih (kept ++ [a]) he' hf'
        refine ⟨l, ?_⟩
        simp only [sweepClients, if_neg h]
        exact hl

/-- C5: on a sweep at time `now`, every connection whose `lastSeen` is
more than 5,000ms in the past is closed with code 4001 and removed from
the room's client map, and a `leave` presence update with its participant
id is sent to every fresh open member; fresh connections are kept and
their sockets are never closed; the sweep runs over every room of the
registry on a 1,000ms interval with a 5,000ms staleness threshold. -/
theorem staleSweepEvictsAndLeaves (now : Nat)
    (clients : List (String × ClientConnection))
    (hws : (clients.map (fun e => e.2.ws)).Nodup) :
    (sweepClients now [] clients).1 =
      clients.filter (fun e => ¬ PRESENCE_TIMEOUT < now - e.2.lastSeen) ∧
    (∀ e ∈ clients, PRESENCE_TIMEOUT < now - e.2.lastSeen →
      Effect.close e.2.ws 4001 "Connection timeout" ∈
        (sweepClients now [] clients).2 ∧
      ∀ f ∈ clients, ¬ PRESENCE_TIMEOUT < now - f.2.lastSeen →
        f.2.wsOpen →
        ∃ l, Effect.send f.2.ws (.presence "leave" e.1 l) ∈
          (sweepClients now [] clients).2) ∧
    (∀ f ∈ clients, ¬ PRESENCE_TIMEOUT < now - f.2.lastSeen →
      ∀ code reason, Effect.close f.2.ws code reason ∉
        (sweepClients now [] clients).2) ∧
    (∀ s : ServerState, (cleanupStalePresence now s).1.rooms =
      s.rooms.map (fun kr => (kr.1, (cleanupRoom now kr.2).1))) ∧
    PRESENCE_TIMEOUT = 5000 ∧ presenceSweepIntervalMs = 1000 := by
  refine ⟨?_, ?_, ?_, ?_, rfl, rfl⟩
  · simpa using sweepClients_fst now [] clients
  · intro e he hst
    refine ⟨stale_close_mem_sweep now [] clients e he hst, ?_⟩
    intro f hf hfresh hopen
    exact leave_broadcast_mem_sweep now [] clients e he hst f
      (by simpa using hf) hfresh hopen
  · intro f hf hfresh code reason hm
    obtain ⟨e, he, hest, hew⟩ :=
      close_mem_sweep_source now [] clients f.2.ws code reason hm
    have : e = f :=
      List.inj_on_of_nodup_map hws he hf hew
    rw [this] at hest
    exact hfresh hest
  · intro s
    simp [cleanupStalePresence, List.map_map, Function.comp]

/-- Witness for C5: at `now = 10000`, `"a"` (lastSeen 9000) is fresh and
`"b"` (lastSeen 100) is stale. -/
theorem staleSweepEvictsAndLeaves_w :
    (sweepClients 10000 []
        [("a", ⟨1, true, "a", "Anonymous", "#FF6B6B", 9000, none⟩),
         ("b", ⟨2, true, "b", "Anonymous", "#4ECDC4", 100, none⟩)]).1 =
      [("a", ⟨1, true, "a", "Anonymous", "#FF6B6B", 9000, none⟩),
       ("b", ⟨2, true, "b", "Anonymous", "#4ECDC4", 100, none⟩)].filter
        (fun e => ¬ PRESENCE_TIMEOUT < 10000 - e.2.lastSeen) ∧
    (∀ e ∈ [(("a" : String), (⟨1, true, "a", "Anonymous", "#FF6B6B", 9000,
        none⟩ : ClientConnection)),
        ("b", ⟨2, true, "b", "Anonymous", "#4ECDC4", 100, none⟩)],
      PRESENCE_TIMEOUT < 10000 - e.2.lastSeen →
      Effect.close e.2.ws 4001 "Connection timeout" ∈
        (sweepClients 10000 []
          [("a", ⟨1, true, "a", "Anonymous", "#FF6B6B", 9000, none⟩),
           ("b", ⟨2, true, "b", "Anonymous", "#4ECDC4", 100, none⟩)]).2 ∧
      ∀ f ∈ [(("a" : String), (⟨1, true, "a", "Anonymous", "#FF6B6B", 9000,
          none⟩ : ClientConnection)),
          ("b", ⟨2, true, "b", "Anonymous", "#4ECDC4", 100, none⟩)],
        ¬ PRESENCE_TIMEOUT < 10000 - f.2.lastSeen → f.2.wsOpen →
        ∃ l, Effect.send f.2.ws (.presence "leave" e.1 l) ∈
          (sweepClients 10000 []
            [("a", ⟨1, true, "a", "Anonymous", "#FF6B6B", 9000, none⟩),
             ("b", ⟨2, true, "b", "Anonymous", "#4ECDC4", 100, none⟩)]).2) ∧
    (∀ f ∈ [(("a" : String), (⟨1, true, "a", "Anonymous", "#FF6B6B", 9000,
        none⟩ : ClientConnection)),
        ("b", ⟨2, true, "b", "Anonymous", "#4ECDC4", 100, none⟩)],
      ¬ PRESENCE_TIMEOUT < 10000 - f.2.lastSeen →
      ∀ code reason, Effect.close f.2.ws code reason ∉
        (sweepClients 10000 []
          [("a", ⟨1, true, "a", "Anonymous", "#FF6B6B", 9000, none⟩),
           ("b", ⟨2, true, "b", "Anonymous", "#4ECDC4", 100, none⟩)]).2) ∧
    (∀ s : ServerState, (cleanupStalePresence 10000 s).1.rooms =
      s.rooms.map (fun kr => (kr.1, (cleanupRoom 10000 kr.2).1))) ∧
    PRESENCE_TIMEOUT = 5000 ∧ presenceSweepIntervalMs = 1000 :=
  staleSweepEvictsAndLeaves 10000
    [("a", ⟨1, true, "a", "Anonymous", "#FF6B6B", 9000, none⟩),
     ("b", ⟨2, true, "b", "Anonymous", "#4ECDC4", 100, none⟩)]
    (by decide)

end ObsedianCloud
